import Mathlib

/-!
Shallow embedding of the kb- trading backend: `app/schemas.py`,
`app/kis_client.py` and `app/main.py`.

Conventions used throughout:

* Python floats are modelled as exact rationals (`ℚ`); `round(x, 2)` is
  modelled by `round2`, rounding to the nearest multiple of `1/100`.
* Every `async` HTTP call is modelled as an explicit function parameter of
  type `... → Except String _`; a raised exception is `Except.error`.
* The mutable module-level `KISClient` singleton is modelled by explicit
  state passing on a `KISState` record.
* `app/weights.py` (`calculate_weights`) is imported by `app/main.py` but is
  not present in the repository; it is modelled from the spec (see
  `calculate_weights` below).
-/

deriving instance DecidableEq for Except

/-- Rounding to 2 decimal places, modelling Python `round(x, 2)` applied to
the exact rational value of the float. (`round` rounds ties half-up; Python
rounds ties of the underlying binary float to even — no statement below
depends on a tie.) -/
def round2 (q : ℚ) : ℚ := (round (q * 100) : ℚ) / 100

/-- One element of the `output2` list in a daily-price response
(`app/kis_client.py`). Fields are `Option`s because responses are plain
dicts accessed with `.get` and a default. -/
structure QuoteRow where
  stck_bsop_date : Option String := none
  stck_oprc : Option ℚ := none
  stck_hgpr : Option ℚ := none
  stck_lwpr : Option ℚ := none
  stck_clpr : Option ℚ := none
  acml_vol : Option ℚ := none
deriving DecidableEq, Repr

/-- A daily-price response body; the `output2` key may be absent (`none`). -/
structure PriceData where
  output2 : Option (List QuoteRow) := none
deriving DecidableEq, Repr

/-- The close-price extraction
`float(data.get("output2", [{}])[0].get("stck_clpr", 0))` used in
`app/main.py` lines 84 and 99. `none` models the `IndexError` raised by
`[0]` when the `output2` key is present but holds an empty list; a missing
`output2` key falls back to `[{}]` and a missing `stck_clpr` key falls back
to `0`. -/
def previewPrice (d : PriceData) : Option ℚ :=
  match d.output2.getD [({} : QuoteRow)] with
  | [] => none
  | row :: _ => some (row.stck_clpr.getD 0)

/-- `PortfolioItem` of `app/schemas.py`. -/
structure PortfolioItem where
  symbol : String
  reason : String
deriving DecidableEq, Repr

/-- `WeightsRequest` of `app/schemas.py`; defaults as in the pydantic model.
The `Field(..., gt=0)` constraint on `total_cash` is modelled separately by
`validateWeightsRequest`. -/
structure WeightsRequest where
  total_cash : ℚ
  items : List PortfolioItem
  initial_buy_ratio : ℚ := 1/2
  discount_rate : ℚ := 3/100
deriving DecidableEq, Repr

/-- Pydantic boundary validation of `WeightsRequest` (`app/schemas.py` line
45): `total_cash` must be strictly positive; no constraint on `items`. -/
def validateWeightsRequest (r : WeightsRequest) : Except String WeightsRequest :=
  if r.total_cash > 0 then .ok r
  else .error "ValidationError: total_cash must be greater than 0"

/-- `WeightResult` of `app/schemas.py`. -/
structure WeightResult where
  symbol : String
  weight : ℚ
  initial_buy_cash : ℚ
  dca_cash : ℚ
  limit_price_hint : ℚ
deriving DecidableEq, Repr

/-- `WeightsResponse` of `app/schemas.py`. -/
structure WeightsResponse where
  results : List WeightResult
deriving DecidableEq, Repr

/-- `OrderPreviewRequest` of `app/schemas.py` (a `WeightsResponse` plus
`total_cash`). -/
structure OrderPreviewRequest where
  results : List WeightResult
  total_cash : ℚ
deriving DecidableEq, Repr

/-- `OrderPreviewItem` of `app/schemas.py`. -/
structure OrderPreviewItem where
  symbol : String
  weight : ℚ
  price : ℚ
  qty_market : ℤ
  qty_limit : ℤ
  limit_price : ℚ
  cash_needed : ℚ
deriving DecidableEq, Repr

/-- `OrderPreviewResponse` of `app/schemas.py`. -/
structure OrderPreviewResponse where
  items : List OrderPreviewItem
  total_cash_needed : ℚ
deriving DecidableEq, Repr

/-- `qty_market = floor(r.initial_buy_cash / price) if price else 0`
(`app/main.py` line 100). Python float truthiness makes the guard
`price ≠ 0`. -/
def qtyMarketOf (r : WeightResult) (price : ℚ) : ℤ :=
  if price ≠ 0 then ⌊r.initial_buy_cash / price⌋ else 0

/-- `qty_limit = floor(r.dca_cash / r.limit_price_hint) if r.limit_price_hint
else 0` (`app/main.py` line 101). -/
def qtyLimitOf (r : WeightResult) : ℤ :=
  if r.limit_price_hint ≠ 0 then ⌊r.dca_cash / r.limit_price_hint⌋ else 0

/-- `cash = qty_market * price + qty_limit * r.limit_price_hint`
(`app/main.py` line 102), before rounding. -/
def cashOf (r : WeightResult) (price : ℚ) : ℚ :=
  qtyMarketOf r price * price + qtyLimitOf r * r.limit_price_hint

/-- The `OrderPreviewItem` appended for one allocation row
(`app/main.py` lines 104–114). -/
def itemOf (r : WeightResult) (price : ℚ) : OrderPreviewItem :=
  { symbol := r.symbol
    weight := r.weight
    price := price
    qty_market := qtyMarketOf r price
    qty_limit := qtyLimitOf r
    limit_price := r.limit_price_hint
    cash_needed := round2 (cashOf r price) }

/-- The body of the `for r in req.results` loop of `order_preview`
(`app/main.py` lines 94–114), returning the item list and the unrounded
running total `total_needed`. A failing price lookup is re-raised as an
HTTP 500 (`Except.error`), aborting the whole loop; an empty `output2`
list raises `IndexError` outside the `try`, likewise aborting. -/
def previewLoop (lookup : String → Except String PriceData) :
    List WeightResult → Except String (List OrderPreviewItem × ℚ)
  | [] => .ok ([], 0)
  | r :: rest => do
    let data ← lookup r.symbol
    match previewPrice data with
    | none => .error "IndexError: list index out of range"
    | some price => do
      let (items, total) ← previewLoop lookup rest
      .ok (itemOf r price :: items, cashOf r price + total)

/-- `order_preview` (`app/main.py` lines 90–115): runs the loop, then
rounds the accumulated (unrounded) total. -/
def order_preview (req : OrderPreviewRequest)
    (lookup : String → Except String PriceData) :
    Except String OrderPreviewResponse :=
  (previewLoop lookup req.results).map fun p =>
    { items := p.1, total_cash_needed := round2 p.2 }

/-- Modelled from the spec: `calculate_weights` lives in `app/weights.py`,
a module imported by `app/main.py` (line 23) and called as
`calculate_weights(req, prices)` (line 86) but absent from the repository
source. Per spec §4.3: reject `totalCash <= 0` and an empty symbol list with
a `ValidationError`; equal-weight split `weight = 1/n`;
`symbolCash = totalCash * weight`; `initialBuyCash = symbolCash *
initialBuyRatio`; `dcaCash = symbolCash * (1 - initialBuyRatio)`;
`limitPriceHint = currentPrice * (1 - discountRate)` using the price map the
caller passes in. -/
def calculate_weights (req : WeightsRequest) (prices : String → ℚ) :
    Except String WeightsResponse :=
  if req.total_cash ≤ 0 then .error "ValidationError: total_cash must be positive"
  else if req.items.isEmpty then .error "ValidationError: items must be non-empty"
  else
    let n : ℚ := req.items.length
    .ok { results := req.items.map fun it =>
      let w : ℚ := 1 / n
      let symbolCash := req.total_cash * w
      { symbol := it.symbol
        weight := w
        initial_buy_cash := symbolCash * req.initial_buy_ratio
        dca_cash := symbolCash * (1 - req.initial_buy_ratio)
        limit_price_hint := prices it.symbol * (1 - req.discount_rate) } }

/-- The price-collection loop of `portfolio_weights` (`app/main.py` lines
78–85): look up each symbol in order, abort with HTTP 500 on a lookup
exception; an empty `output2` list raises `IndexError` (uncaught). Returns
the price map together with the list of symbols actually looked up. -/
def weightsLoop (lookup : String → Except String PriceData) :
    List PortfolioItem → (String → ℚ) →
    (Except String (String → ℚ)) × List String
  | [], prices => (.ok prices, [])
  | it :: rest, prices =>
    match lookup it.symbol with
    | .error e => (.error e, [it.symbol])
    | .ok data =>
      match previewPrice data with
      | none => (.error "IndexError: list index out of range", [it.symbol])
      | some p =>
        let (res, calls) :=
          weightsLoop lookup rest (fun s => if s = it.symbol then p else prices s)
        (res, it.symbol :: calls)

/-- `portfolio_weights` (`app/main.py` lines 76–87) together with pydantic
boundary validation of the request. Returns the handler outcome paired with
the list of symbols for which a network price lookup was issued; a rejected
request never reaches the handler, hence issues no lookups. -/
def portfolio_weights (raw : WeightsRequest)
    (lookup : String → Except String PriceData) :
    Except String WeightsResponse × List String :=
  match validateWeightsRequest raw with
  | .error e => (.error e, [])
  | .ok req =>
    match weightsLoop lookup req.items (fun _ => 0) with
    | (.error e, calls) => (.error e, calls)
    | (.ok prices, calls) => (calculate_weights req prices, calls)

/-- State of the module-level `KISClient` singleton (`app/kis_client.py`
lines 18–32). Network-only configuration (`base_url`, `cano`,
`acnt_prdt_cd`, `custtype`) is carried by no modelled claim and omitted.
`expires` starts at `datetime.min`, modelled as a time earlier than every
`now` used. -/
structure KISState where
  appkey : String
  appsecret : String
  mode : String
  mock : Bool
  token : Option String
  expires : ℚ
  token_strategy : String
deriving DecidableEq, Repr

/-- Python truthiness of an optional string (`if appkey:`, `if self.token:`):
`None` and `""` are falsy. -/
def truthyStr : Option String → Bool
  | none => false
  | some s => s ≠ ""

/-- The `{"access_token": ..., "expires_at": ...}` dict returned by
`get_access_token`. `access_token` is `Option` because the live branch
stores `res.get("access_token")`, which may be absent. -/
structure TokenOut where
  access_token : Option String
  expires_at : ℚ
deriving DecidableEq, Repr

/-- `KISClient.get_access_token` (`app/kis_client.py` lines 34–60), with
time passed explicitly (`now`, in hours) and the live credential exchange
modelled by `fetch : Except String (Option String)` (`Except.error` is the
non-200 `HTTPStatusError`; the payload is `res.get("access_token")`).
The state is returned in every case because the Python object keeps its
mutations even when the fetch raises. -/
def get_access_token (s : KISState) (now : ℚ)
    (appkey appsecret : Option String)
    (fetch : Except String (Option String)) :
    KISState × Except String TokenOut :=
  let s := if truthyStr appkey then { s with appkey := appkey.getD "" } else s
  let s := if truthyStr appsecret then { s with appsecret := appsecret.getD "" } else s
  if truthyStr s.token ∧ now < s.expires then
    (s, .ok { access_token := s.token, expires_at := s.expires })
  else if s.mock then
    let ttl : ℚ := if s.token_strategy = "short" then 24 else 24 * 90
    let s := { s with token := some "MOCK_TOKEN", expires := now + (ttl - 1) }
    (s, .ok { access_token := s.token, expires_at := s.expires })
  else
    match fetch with
    | .error e => (s, .error e)
    | .ok tok =>
      let ttl : ℚ := if s.token_strategy = "short" then 24 else 24 * 90
      let s := { s with token := tok, expires := now + (ttl - 1) }
      (s, .ok { access_token := s.token, expires_at := s.expires })

/-- `TokenRequest` of `app/schemas.py`. -/
structure TokenRequest where
  appkey : Option String := none
  appsecret : Option String := none
  mode : Option String := none
deriving DecidableEq, Repr

/-- `api_token` (`app/main.py` lines 45–53): optionally overwrite the
client's mode, then acquire a token. -/
def api_token (s : KISState) (req : TokenRequest) (now : ℚ)
    (fetch : Except String (Option String)) :
    KISState × Except String TokenOut :=
  let s := if truthyStr req.mode then { s with mode := req.mode.getD "" } else s
  get_access_token s now req.appkey req.appsecret fetch

/-- `symbol[-2:]`: the last two characters (the whole string when shorter). -/
def lastTwo (s : String) : String := s.drop (s.length - 2)

/-- Decimal value of a nonempty all-ASCII-digit character list; `none`
otherwise. -/
def digitsVal : List Char → Option ℕ
  | [] => none
  | cs =>
    if cs.all Char.isDigit then
      some (cs.foldl (fun a c => 10 * a + (c.toNat - 48)) 0)
    else none

/-- The ASCII whitespace characters Python `int()` strips around a numeric
literal. -/
def isPySpace (c : Char) : Bool :=
  c = ' ' || c = '\t' || c = '\n' || c = '\x0b' || c = '\x0c' || c = '\r'

/-- Strip `isPySpace` characters from both ends of a character list. -/
def pyStrip (cs : List Char) : List Char :=
  ((cs.dropWhile isPySpace).reverse.dropWhile isPySpace).reverse

/-- The sign-and-digits core of a Python integer literal: an optional
single leading sign followed by a nonempty run of ASCII digits. -/
def pyIntList : List Char → Option ℤ
  | [] => none
  | c :: cs =>
    if c = '-' then (digitsVal cs).map fun n : ℕ => -(n : ℤ)
    else if c = '+' then (digitsVal cs).map fun n : ℕ => (n : ℤ)
    else (digitsVal (c :: cs)).map fun n : ℕ => (n : ℤ)

/-- Python `int(s)` on the forms a short stock-symbol suffix can exercise:
optional ASCII whitespace padding, then an optional single sign, then a
nonempty run of ASCII digits. Python additionally accepts Unicode decimal
digits, Unicode whitespace padding, and `_` separators between digits;
every success of this model is a success of `int()` with the same value,
and no statement below asserts failure for the extra characters Python
accepts. -/
def pyInt (s : String) : Option ℤ := pyIntList (pyStrip s.toList)

/-- Mock branch of `KISClient.inquire_daily_price` (`app/kis_client.py`
lines 81–95): `price = 50000 + int(symbol[-2:]) * 10`, one synthetic row
with today's date and zero volume; no network access is involved.
`Except.error` models the `ValueError` raised by `int` when the suffix does
not parse. -/
def inquire_daily_price_mock (symbol today : String) : Except String PriceData :=
  match pyInt (lastTwo symbol) with
  | none => .error "ValueError: invalid literal for int()"
  | some v =>
    let price : ℚ := 50000 + v * 10
    .ok { output2 := some [{ stck_bsop_date := some today
                             stck_oprc := some price
                             stck_hgpr := some price
                             stck_lwpr := some price
                             stck_clpr := some price
                             acml_vol := some 0 }] }

/-- Arguments of one `KISClient.order_cash` call (`app/kis_client.py` line
106). Python passes the unit price as the decimal string `"0"` /
`str(item.limit_price)`; its numeric value is modelled. -/
structure OrderCall where
  pdno : String
  qty : ℤ
  ord_unpr : ℚ
  side : String
  ord_dvsn : String
deriving DecidableEq, Repr

/-- `OrderResult` of `app/schemas.py`; the raw gateway response is carried
as an opaque string. -/
structure OrderResult where
  symbol : String
  order_type : String
  qty : ℤ
  price : ℚ
  response : String
deriving DecidableEq, Repr

/-- The market-buy call for one item (`app/main.py` lines 124–126):
`price="0"`, `ord_dvsn="01"`. -/
def marketCall (it : OrderPreviewItem) : OrderCall :=
  { pdno := it.symbol, qty := it.qty_market, ord_unpr := 0,
    side := "buy", ord_dvsn := "01" }

/-- The limit-buy call for one item (`app/main.py` lines 137–143):
`price=str(item.limit_price)`, `ord_dvsn="00"`. -/
def limitCall (it : OrderPreviewItem) : OrderCall :=
  { pdno := it.symbol, qty := it.qty_limit, ord_unpr := it.limit_price,
    side := "buy", ord_dvsn := "00" }

/-- The body of the `try` block for one item of `order_execute`
(`app/main.py` lines 122–152): submit the market tranche when
`qty_market > 0`, then the limit tranche when `qty_limit > 0`; an exception
from either submission propagates. -/
def executeItem (it : OrderPreviewItem)
    (submit : OrderCall → Except String String) :
    Except String (List OrderResult) := do
  let ms ←
    if it.qty_market > 0 then
      (submit (marketCall it)).map fun r =>
        [{ symbol := it.symbol, order_type := "market", qty := it.qty_market,
           price := 0, response := r }]
    else .ok []
  let ls ←
    if it.qty_limit > 0 then
      (submit (limitCall it)).map fun r =>
        [{ symbol := it.symbol, order_type := "limit", qty := it.qty_limit,
           price := it.limit_price, response := r }]
    else .ok []
  .ok (ms ++ ls)

/-- `order_execute` (`app/main.py` lines 118–155): sequential over items;
the first exception is re-raised as HTTP 500, discarding results already
collected. -/
def order_execute (items : List OrderPreviewItem)
    (submit : OrderCall → Except String String) :
    Except String (List OrderResult) :=
  match items with
  | [] => .ok []
  | it :: rest => do
    let rs ← executeItem it submit
    let others ← order_execute rest submit
    .ok (rs ++ others)

/-- The price `order_preview` extracts for a symbol when its lookup
succeeds (claim-side helper used to state theorems about the loop). -/
def priceAt (lookup : String → Except String PriceData) (sym : String) : ℚ :=
  match lookup sym with
  | .ok d => (previewPrice d).getD 0
  | .error _ => 0

/-- The gateway calls the execution driver will attempt, in order
(claim-side description, built from the spec's words in §4.5). -/
def plannedCalls (items : List OrderPreviewItem) : List OrderCall :=
  items.flatMap fun it =>
    (if it.qty_market > 0 then [marketCall it] else []) ++
    (if it.qty_limit > 0 then [limitCall it] else [])

/-- The first error a submitter yields along a list of calls, if any
(claim-side description). -/
def firstError (submit : OrderCall → Except String String) :
    List OrderCall → Option String
  | [] => none
  | c :: cs =>
    match submit c with
    | .error e => some e
    | .ok _ => firstError submit cs

/-- Response payload of a successful submission, with a dummy value on the
error branch (only consulted when every call succeeds). -/
def okD (x : Except String String) : String :=
  match x with
  | .ok r => r
  | .error _ => ""

/-- Per-item results when every submission succeeds (claim-side description
from spec §4.5: zero, one, or two submissions per item). -/
def plannedResults (items : List OrderPreviewItem)
    (submit : OrderCall → Except String String) : List OrderResult :=
  items.flatMap fun it =>
    (if it.qty_market > 0 then
      [{ symbol := it.symbol, order_type := "market", qty := it.qty_market,
         price := 0, response := okD (submit (marketCall it)) }]
     else []) ++
    (if it.qty_limit > 0 then
      [{ symbol := it.symbol, order_type := "limit", qty := it.qty_limit,
         price := it.limit_price, response := okD (submit (limitCall it)) }]
     else [])

/-- A lookup that always succeeds with close price 50 (test data). -/
def lookup50 : String → Except String PriceData :=
  fun _ => .ok { output2 := some [{ stck_clpr := some 50 }] }

/-- A lookup that succeeds with close price 50 for `"AA"` and raises for
every other symbol (test data). -/
def lookupAAonly : String → Except String PriceData :=
  fun s => if s = "AA" then .ok { output2 := some [{ stck_clpr := some 50 }] }
           else .error "quote error 500"

/-- A lookup that always succeeds with close price `99999/1000` = 99.999
(test data). -/
def lookup99999 : String → Except String PriceData :=
  fun _ => .ok { output2 := some [{ stck_clpr := some (99999/1000) }] }

/-- A lookup that always succeeds with close price `1/250` = 0.004
(test data). -/
def lookupTiny : String → Except String PriceData :=
  fun _ => .ok { output2 := some [{ stck_clpr := some (1/250) }] }

/-- A lookup whose response carries no `stck_clpr` key, so the extracted
price defaults to 0 (test data). -/
def lookupNoClose : String → Except String PriceData :=
  fun s => if s = "AA" then .ok { output2 := some [{ stck_clpr := some 50 }] }
           else .ok { output2 := some [{}] }

/-! ## General lemmas -/

/-- Rounding to 2 decimals moves a value up by at most half a cent. -/
theorem round2_le_add (x : ℚ) : round2 x ≤ x + 1/200 := by
  have h := abs_sub_round (x * 100)
  have h2 : (round (x * 100) : ℚ) ≤ x * 100 + 1/2 := by
    have := (abs_le.mp h).1
    linarith
  calc round2 x = (round (x * 100) : ℚ) / 100 := rfl
    _ ≤ (x * 100 + 1/2) / 100 := by
        exact div_le_div_of_nonneg_right h2 (by norm_num)
    _ = x + 1/200 := by ring

/-- A floored quotient times a positive divisor never exceeds the dividend. -/
theorem floor_div_mul_le (a p : ℚ) (hp : 0 < p) : (⌊a / p⌋ : ℚ) * p ≤ a := by
  calc (⌊a / p⌋ : ℚ) * p ≤ a / p * p :=
        mul_le_mul_of_nonneg_right (Int.floor_le (a / p)) hp.le
    _ = a := div_mul_cancel₀ a hp.ne.symm

/-- The market tranche never spends more than `initial_buy_cash` when the
price is nonnegative and the allotted cash is nonnegative. -/
theorem qtyMarket_mul_le (r : WeightResult) (p : ℚ) (hp : 0 ≤ p)
    (hib : 0 ≤ r.initial_buy_cash) :
    (qtyMarketOf r p : ℚ) * p ≤ r.initial_buy_cash := by
  unfold qtyMarketOf
  by_cases h : p = 0
  · simp [h, hib]
  · rw [if_pos h]
    exact floor_div_mul_le _ _ (hp.lt_of_ne (Ne.symm h))

/-- The limit tranche never spends more than `dca_cash` when the hint and
the allotted cash are nonnegative. -/
theorem qtyLimit_mul_le (r : WeightResult) (hh : 0 ≤ r.limit_price_hint)
    (hdca : 0 ≤ r.dca_cash) :
    (qtyLimitOf r : ℚ) * r.limit_price_hint ≤ r.dca_cash := by
  unfold qtyLimitOf
  by_cases h : r.limit_price_hint = 0
  · simp [h, hdca]
  · rw [if_pos h]
    exact floor_div_mul_le _ _ (hh.lt_of_ne (Ne.symm h))

/-- Unrounded per-item cash is bounded by the cash allotted to the item. -/
theorem cashOf_le (r : WeightResult) (p : ℚ) (hp : 0 ≤ p)
    (hib : 0 ≤ r.initial_buy_cash) (hdca : 0 ≤ r.dca_cash)
    (hh : 0 ≤ r.limit_price_hint) :
    cashOf r p ≤ r.initial_buy_cash + r.dca_cash := by
  unfold cashOf
  have h1 := qtyMarket_mul_le r p hp hib
  have h2 := qtyLimit_mul_le r hh hdca
  linarith

/-- On a nonnegative quantity, guarding by `≠ 0` and guarding by `> 0`
agree. -/
theorem ite_ne_eq_ite_pos {α : Type} (p : ℚ) (hp : 0 ≤ p) (a b : α) :
    (if p ≠ 0 then a else b) = if 0 < p then a else b := by
  by_cases h : p = 0
  · simp [h]
  · simp [h, hp.lt_of_ne (Ne.symm h)]

/-- When every symbol's lookup succeeds and yields an extractable price, the
preview loop returns one item per allocation row (built by `itemOf` at the
looked-up price) and accumulates the unrounded cash values. -/
theorem previewLoop_eq_map (lookup : String → Except String PriceData) :
    ∀ rs : List WeightResult,
    (∀ r ∈ rs, ∃ d, lookup r.symbol = .ok d ∧ (previewPrice d).isSome) →
    previewLoop lookup rs =
      .ok (rs.map fun r => itemOf r (priceAt lookup r.symbol),
           (rs.map fun r => cashOf r (priceAt lookup r.symbol)).sum)
  | [], _ => by simp [previewLoop]
  | r :: rest, h => by
    obtain ⟨d, hd, hs⟩ := h r (List.mem_cons_self r rest)
    obtain ⟨p, hp⟩ := Option.isSome_iff_exists.mp hs
    have ih := previewLoop_eq_map lookup rest
      (fun x hx => h x (List.mem_cons_of_mem _ hx))
    have hpa : priceAt lookup r.symbol = p := by simp [priceAt, hd, hp]
    simp [previewLoop, hd, hp, ih, hpa, Except.instMonad, Except.bind,
      List.sum_cons]

/-- `order_preview`, under the same hypothesis: the response pairs the
mapped items with the rounded sum of unrounded cash values. -/
theorem order_preview_eq_map (req : OrderPreviewRequest)
    (lookup : String → Except String PriceData)
    (h : ∀ r ∈ req.results, ∃ d, lookup r.symbol = .ok d ∧
      (previewPrice d).isSome) :
    order_preview req lookup =
      .ok { items := req.results.map fun r => itemOf r (priceAt lookup r.symbol),
            total_cash_needed :=
              round2 ((req.results.map fun r =>
                cashOf r (priceAt lookup r.symbol)).sum) } := by
  unfold order_preview
  rw [previewLoop_eq_map lookup req.results h]
  rfl

/-- Shape of a successful `calculate_weights` call. -/
theorem calculate_weights_ok (req : WeightsRequest) (prices : String → ℚ)
    (wresp : WeightsResponse)
    (h : calculate_weights req prices = .ok wresp) :
    0 < req.total_cash ∧ req.items ≠ [] ∧
    wresp.results = req.items.map fun it =>
      { symbol := it.symbol
        weight := 1 / (req.items.length : ℚ)
        initial_buy_cash :=
          req.total_cash * (1 / (req.items.length : ℚ)) * req.initial_buy_ratio
        dca_cash :=
          req.total_cash * (1 / (req.items.length : ℚ)) *
            (1 - req.initial_buy_ratio)
        limit_price_hint := prices it.symbol * (1 - req.discount_rate) } := by
  unfold calculate_weights at h
  by_cases h1 : req.total_cash ≤ 0
  · simp [h1] at h
  · by_cases h2 : req.items.isEmpty
    · simp [h1, h2] at h
    · refine ⟨lt_of_not_le h1, by simpa [List.isEmpty_iff] using h2, ?_⟩
      simp only [h1, h2, if_false, ite_false] at h
      cases h
      rfl

/-- The first error over a concatenation of call lists. -/
theorem firstError_append (submit : OrderCall → Except String String)
    (l1 l2 : List OrderCall) :
    firstError submit (l1 ++ l2) =
      match firstError submit l1 with
      | some e => some e
      | none => firstError submit l2 := by
  induction l1 with
  | nil => simp [firstError]
  | cons c cs ih =>
    simp only [List.cons_append, firstError]
    cases submit c with
    | error e => rfl
    | ok r => exact ih

/-- One item of the execution driver, as plan-then-run: it fails with the
first error among its (zero, one, or two) planned calls, and otherwise
yields exactly its planned results. -/
theorem executeItem_plan (it : OrderPreviewItem)
    (submit : OrderCall → Except String String) :
    executeItem it submit =
      match firstError submit
        ((if it.qty_market > 0 then [marketCall it] else []) ++
         (if it.qty_limit > 0 then [limitCall it] else [])) with
      | some e => .error e
      | none =>
        .ok ((if it.qty_market > 0 then
                [{ symbol := it.symbol, order_type := "market",
                   qty := it.qty_market, price := 0,
                   response := okD (submit (marketCall it)) }]
              else []) ++
             (if it.qty_limit > 0 then
                [{ symbol := it.symbol, order_type := "limit",
                   qty := it.qty_limit, price := it.limit_price,
                   response := okD (submit (limitCall it)) }]
              else [])) := by
  unfold executeItem
  by_cases hm : it.qty_market > 0 <;> by_cases hl : it.qty_limit > 0 <;>
    simp only [hm, hl, if_true, if_false, ite_true, ite_false,
      List.nil_append, List.append_nil, List.cons_append, firstError] <;>
    cases hsm : submit (marketCall it) <;>
    cases hsl : submit (limitCall it) <;>
    simp [Except.instMonad, Except.bind, Except.map, firstError, okD, hsm, hsl]

/-- A nonempty all-digit string parses. -/
theorem digitsVal_isSome (cs : List Char) (hne : cs ≠ [])
    (hd : ∀ c ∈ cs, c.isDigit) : (digitsVal cs).isSome := by
  cases cs with
  | nil => exact absurd rfl hne
  | cons c cs' =>
    have : ((c :: cs').all Char.isDigit) = true := by
      simp only [List.all_eq_true]
      exact hd
    simp [digitsVal, this]

/-- Parsing succeeds only on digit lists. -/
theorem digitsVal_some_digits (cs : List Char) (n : ℕ)
    (h : digitsVal cs = some n) : ∀ c ∈ cs, c.isDigit := by
  cases cs with
  | nil => simp [digitsVal] at h
  | cons c cs' =>
    by_cases hall : ((c :: cs').all Char.isDigit) = true
    · simpa only [List.all_eq_true] using hall
    · simp [digitsVal, hall] at h

/-- Parsing a sign-and-digits core succeeds only when every character is a
digit or a sign. -/
theorem pyIntList_some_chars (cs : List Char) (v : ℤ)
    (h : pyIntList cs = some v) :
    ∀ c ∈ cs, c.isDigit ∨ c = '-' ∨ c = '+' := by
  intro c hc
  cases cs with
  | nil => exact absurd hc (List.not_mem_nil c)
  | cons c0 cs' =>
    rw [pyIntList] at h
    by_cases h0 : c0 = '-'
    · rw [if_pos h0] at h
      cases hc with
      | head => exact Or.inr (Or.inl h0)
      | tail _ hmem =>
        obtain ⟨n, hn, -⟩ := Option.map_eq_some'.mp h
        exact Or.inl (digitsVal_some_digits cs' n hn c hmem)
    · rw [if_neg h0] at h
      by_cases h1 : c0 = '+'
      · rw [if_pos h1] at h
        cases hc with
        | head => exact Or.inr (Or.inr h1)
        | tail _ hmem =>
          obtain ⟨n, hn, -⟩ := Option.map_eq_some'.mp h
          exact Or.inl (digitsVal_some_digits cs' n hn c hmem)
      · rw [if_neg h1] at h
        obtain ⟨n, hn, -⟩ := Option.map_eq_some'.mp h
        exact Or.inl (digitsVal_some_digits (c0 :: cs') n hn c hc)

/-- A member of a list either survives `dropWhile` or satisfies the
dropped-prefix predicate. -/
theorem mem_dropWhile_or (p : Char → Bool) :
    ∀ cs : List Char, ∀ c ∈ cs, c ∈ cs.dropWhile p ∨ p c
  | [], c, hc => absurd hc (List.not_mem_nil c)
  | a :: l, c, hc => by
    by_cases hp : p a
    · have hdw : (a :: l).dropWhile p = l.dropWhile p := by
        simp [List.dropWhile, hp]
      rw [hdw]
      cases hc with
      | head => exact Or.inr hp
      | tail _ hmem => exact mem_dropWhile_or p l c hmem
    · have hdw : (a :: l).dropWhile p = a :: l := by
        simp [List.dropWhile, hp]
      rw [hdw]
      exact Or.inl hc

/-- A member of a list either survives the two-sided whitespace strip or is
whitespace. -/
theorem mem_pyStrip_or_space (cs : List Char) :
    ∀ c ∈ cs, c ∈ pyStrip cs ∨ isPySpace c := by
  intro c hc
  rcases mem_dropWhile_or isPySpace cs c hc with h1 | h1
  · rcases mem_dropWhile_or isPySpace (cs.dropWhile isPySpace).reverse c
      (List.mem_reverse.mpr h1) with h2 | h2
    · exact Or.inl (by unfold pyStrip; exact List.mem_reverse.mpr h2)
    · exact Or.inr h2
  · exact Or.inr h1

/-- Every character of a string accepted by `pyInt` is a digit, a sign, or
whitespace. -/
theorem pyInt_some_chars (s : String) (v : ℤ) (h : pyInt s = some v) :
    ∀ c ∈ s.toList, c.isDigit ∨ c = '-' ∨ c = '+' ∨ isPySpace c := by
  unfold pyInt at h
  intro c hc
  rcases mem_pyStrip_or_space s.toList c hc with h1 | h1
  · rcases pyIntList_some_chars (pyStrip s.toList) v h c h1 with h2 | h2 | h2
    · exact Or.inl h2
    · exact Or.inr (Or.inl h2)
    · exact Or.inr (Or.inr (Or.inl h2))
  · exact Or.inr (Or.inr (Or.inr h1))

/-- A digit is not Python whitespace. -/
theorem isPySpace_of_digit (c : Char) (hd : c.isDigit) :
    isPySpace c = false := by
  cases hsp : isPySpace c
  · rfl
  · exfalso
    unfold isPySpace at hsp
    simp only [Bool.or_eq_true, decide_eq_true_eq] at hsp
    rcases hsp with ((((h | h) | h) | h) | h) | h <;> subst h <;>
      exact absurd hd (by decide)

/-- Stripping whitespace leaves an all-digit list unchanged. -/
theorem pyStrip_of_digits (cs : List Char) (h : ∀ c ∈ cs, c.isDigit) :
    pyStrip cs = cs := by
  have hdw : ∀ l : List Char, (∀ c ∈ l, c.isDigit) →
      l.dropWhile isPySpace = l := by
    intro l hl
    cases l with
    | nil => rfl
    | cons a t =>
      have := isPySpace_of_digit a (hl a (List.mem_cons_self a t))
      simp [List.dropWhile, this]
  unfold pyStrip
  rw [hdw cs h, hdw cs.reverse (fun c hcm => h c (List.mem_reverse.mp hcm))]
  exact List.reverse_reverse cs

/-- A symbol whose suffix is nonempty and all digits parses. -/
theorem pyInt_of_digits (s : String) (h1 : s.toList ≠ [])
    (h2 : ∀ c ∈ s.toList, c.isDigit) : (pyInt s).isSome := by
  unfold pyInt
  rw [pyStrip_of_digits s.toList h2]
  cases hm : s.toList with
  | nil => exact absurd hm h1
  | cons c0 cs =>
    rw [hm] at h2
    have hd0 : c0.isDigit := h2 c0 (List.mem_cons_self c0 cs)
    have hne : c0 ≠ '-' := by
      intro he; rw [he] at hd0; exact absurd hd0 (by decide)
    have hne2 : c0 ≠ '+' := by
      intro he; rw [he] at hd0; exact absurd hd0 (by decide)
    rw [pyIntList, if_neg hne, if_neg hne2]
    have := digitsVal_isSome (c0 :: cs) (List.cons_ne_nil c0 cs) h2
    obtain ⟨n, hn⟩ := Option.isSome_iff_exists.mp this
    simp [hn]

/-- The length of `toList` is the string length. -/
theorem toList_length (s : String) : s.toList.length = s.length := rfl

/-- The last-two-characters suffix of a nonempty string is nonempty. -/
theorem lastTwo_ne_nil (s : String) (h : s ≠ "") : (lastTwo s).toList ≠ [] := by
  intro hnil
  apply h
  have h2 : (lastTwo s).toList = s.toList.drop (s.length - 2) :=
    String.data_drop s _
  rw [h2] at hnil
  have h3 := congrArg List.length hnil
  rw [List.length_drop, toList_length] at h3
  simp only [List.length_nil] at h3
  have h4 : s.length = 0 := by omega
  have h5 : s.toList = [] := List.length_eq_zero.mp (by rw [toList_length]; exact h4)
  exact String.ext h5

/-! ## Claims -/

/-- C7: in mock mode, `inquire_daily_price` deterministically synthesizes,
for every symbol whose last two characters have integer value `v`, a quote
whose open, high, low and close all equal `50000 + v * 10`, with today's
date and zero volume; the mock branch consumes no network input. (The
instance symbol "005930", price 50300, is checked in the witness.) -/
theorem mock_daily_price_formula (symbol today : String) (v : ℤ)
    (h : pyInt (lastTwo symbol) = some v) :
    inquire_daily_price_mock symbol today =
      .ok { output2 := some [{ stck_bsop_date := some today
                               stck_oprc := some (50000 + (v : ℚ) * 10)
                               stck_hgpr := some (50000 + (v : ℚ) * 10)
                               stck_lwpr := some (50000 + (v : ℚ) * 10)
                               stck_clpr := some (50000 + (v : ℚ) * 10)
                               acml_vol := some 0 }] } := by
  unfold inquire_daily_price_mock
  rw [h]

theorem mock_daily_price_formula_witness :
    pyInt (lastTwo "005930") = some 30 ∧
    inquire_daily_price_mock "005930" "20260101" =
      .ok { output2 := some [{ stck_bsop_date := some "20260101"
                               stck_oprc := some 50300
                               stck_hgpr := some 50300
                               stck_lwpr := some 50300
                               stck_clpr := some 50300
                               acml_vol := some 0 }] } := by
  have hp : pyInt (lastTwo "005930") = some 30 := by decide
  refine ⟨hp, ?_⟩
  rw [mock_daily_price_formula "005930" "20260101" 30 hp]
  norm_num

/-- C10 (counterexample to the claim as stated): a suffix need not be two
digits for `int` to accept it. The final two characters of "0-5" are "-5" —
not both digits — yet `int("-5")` succeeds and the mock quote is
synthesized at `50000 - 50 = 49950`; likewise the final two characters of
"A 5" are " 5" — a space is not a digit — yet `int(" 5")` strips the
whitespace and succeeds, giving price `50000 + 50 = 50050`. -/
theorem mock_price_signed_suffix_succeeds :
    lastTwo "0-5" = "-5" ∧ ('-').isDigit = false ∧
    inquire_daily_price_mock "0-5" "20260101" =
      .ok { output2 := some [{ stck_bsop_date := some "20260101"
                               stck_oprc := some 49950
                               stck_hgpr := some 49950
                               stck_lwpr := some 49950
                               stck_clpr := some 49950
                               acml_vol := some 0 }] } ∧
    lastTwo "A 5" = " 5" ∧ (' ').isDigit = false ∧
    inquire_daily_price_mock "A 5" "20260101" =
      .ok { output2 := some [{ stck_bsop_date := some "20260101"
                               stck_oprc := some 50050
                               stck_hgpr := some 50050
                               stck_lwpr := some 50050
                               stck_clpr := some 50050
                               acml_vol := some 0 }] } := by
  refine ⟨by decide, by decide, ?_, by decide, by decide, ?_⟩
  · unfold inquire_daily_price_mock
    rw [show pyInt (lastTwo "0-5") = some (-5) from by decide]
    norm_num
  · unfold inquire_daily_price_mock
    rw [show pyInt (lastTwo "A 5") = some 5 from by decide]
    norm_num

/-- C10 (amended): the mock-mode price lookup is partial over symbols — it
succeeds only when `int` accepts the last two characters. An all-digit
suffix of a nonempty symbol succeeds; the empty symbol fails; and a suffix
containing an ASCII character that is not a digit, not a sign, not
whitespace and not an underscore — a character `int()` accepts nowhere in
a literal — fails. Suffixes that are not all digits can still succeed when
`int()` accepts them, e.g. the signed suffix "-5" and the space-padded
suffix " 5" of the counterexample. (Unicode digits and Unicode whitespace,
which `int()` also accepts, are outside this model; no failure is asserted
for them.) -/
theorem mock_price_partiality (symbol today : String) :
    (symbol ≠ "" → (∀ c ∈ (lastTwo symbol).toList, c.isDigit) →
      ∃ d, inquire_daily_price_mock symbol today = .ok d) ∧
    (symbol = "" →
      inquire_daily_price_mock symbol today =
        .error "ValueError: invalid literal for int()") ∧
    ((∃ c ∈ (lastTwo symbol).toList, c.toNat < 128 ∧ c.isDigit = false ∧
        c ≠ '-' ∧ c ≠ '+' ∧ isPySpace c = false ∧ c ≠ '_') →
      inquire_daily_price_mock symbol today =
        .error "ValueError: invalid literal for int()") := by
  refine ⟨?_, ?_, ?_⟩
  · intro hne hd
    have h1 := pyInt_of_digits (lastTwo symbol) (lastTwo_ne_nil symbol hne) hd
    obtain ⟨v, hv⟩ := Option.isSome_iff_exists.mp h1
    exact ⟨_, by unfold inquire_daily_price_mock; rw [hv]⟩
  · intro he
    subst he
    rfl
  · intro ⟨c, hc, hbad⟩
    unfold inquire_daily_price_mock
    cases hp : pyInt (lastTwo symbol) with
    | none => rfl
    | some v =>
      rcases pyInt_some_chars (lastTwo symbol) v hp c hc with h | h | h | h
      · rw [hbad.2.1] at h
        exact absurd h (by decide)
      · exact absurd h hbad.2.2.1
      · exact absurd h hbad.2.2.2.1
      · rw [hbad.2.2.2.2.1] at h
        exact absurd h (by decide)

theorem mock_price_partiality_witness :
    (∃ d, inquire_daily_price_mock "12" "20260101" = .ok d) ∧
    inquire_daily_price_mock "XZ" "20260101" =
      .error "ValueError: invalid literal for int()" := by
  constructor
  · exact (mock_price_partiality "12" "20260101").1 (by decide)
      (by decide)
  · exact (mock_price_partiality "XZ" "20260101").2.2
      ⟨'X', by decide, by decide⟩

/-- Truthiness of an absent optional string. -/
theorem truthyStr_none : truthyStr none = false := rfl

/-- `get_access_token` with no overrides, in fully reduced form. -/
theorem get_access_token_no_override (s : KISState) (now : ℚ)
    (fetch : Except String (Option String)) :
    get_access_token s now none none fetch =
      (if truthyStr s.token ∧ now < s.expires then
        (s, .ok { access_token := s.token, expires_at := s.expires })
      else if s.mock then
        ({ s with token := some "MOCK_TOKEN",
                  expires := now +
                    ((if s.token_strategy = "short" then 24 else 24 * 90) - 1) },
         .ok { access_token := some "MOCK_TOKEN",
               expires_at := now +
                 ((if s.token_strategy = "short" then 24 else 24 * 90) - 1) })
      else
        match fetch with
        | .error e => (s, .error e)
        | .ok tok =>
          ({ s with token := tok,
                    expires := now +
                      ((if s.token_strategy = "short" then 24 else 24 * 90) - 1) },
           .ok { access_token := tok,
                 expires_at := now +
                   ((if s.token_strategy = "short" then 24 else 24 * 90) - 1) })) :=
  rfl

/-- C4: a cached token that is truthy and unexpired is returned unchanged,
independently of the would-be network fetch (no I/O, no mock synthesis),
so a second acquisition within the TTL window returns the identical token;
on a cache miss the mock branch — and the live branch on a successful
exchange — sets the new expiry to `now + (ttl - 1)` hours with `ttl = 24`
for the "short" strategy and `2160` otherwise (hence for "long"). -/
theorem token_cache_spec (s : KISState) (now : ℚ)
    (fetch fetch' : Except String (Option String)) :
    (truthyStr s.token = true → now < s.expires →
      get_access_token s now none none fetch =
        (s, .ok { access_token := s.token, expires_at := s.expires }) ∧
      get_access_token s now none none fetch =
        get_access_token s now none none fetch') ∧
    (¬(truthyStr s.token = true ∧ now < s.expires) → s.mock = true →
      get_access_token s now none none fetch =
        ({ s with token := some "MOCK_TOKEN"
                  expires := now +
                    ((if s.token_strategy = "short" then 24 else 2160) - 1) },
         .ok { access_token := some "MOCK_TOKEN"
               expires_at := now +
                 ((if s.token_strategy = "short" then 24 else 2160) - 1) })) ∧
    (¬(truthyStr s.token = true ∧ now < s.expires) → s.mock = false →
      ∀ tok, fetch = .ok tok →
      get_access_token s now none none fetch =
        ({ s with token := tok
                  expires := now +
                    ((if s.token_strategy = "short" then 24 else 2160) - 1) },
         .ok { access_token := tok
               expires_at := now +
                 ((if s.token_strategy = "short" then 24 else 2160) - 1) })) ∧
    (¬(truthyStr s.token = true ∧ now < s.expires) → s.mock = true →
      ∀ t1, t1 < now + ((if s.token_strategy = "short" then 24 else 2160) - 1) →
      get_access_token (get_access_token s now none none fetch).1 t1
          none none fetch' =
        ((get_access_token s now none none fetch).1,
         .ok { access_token := some "MOCK_TOKEN"
               expires_at := now +
                 ((if s.token_strategy = "short" then 24 else 2160) - 1) })) := by
  have h2160 : ((if s.token_strategy = "short" then (24 : ℚ) else 24 * 90) - 1) =
      ((if s.token_strategy = "short" then (24 : ℚ) else 2160) - 1) := by
    by_cases hst : s.token_strategy = "short" <;> norm_num [hst]
  refine ⟨?_, ?_, ?_, ?_⟩
  · intro ht hlt
    rw [get_access_token_no_override s now fetch,
      get_access_token_no_override s now fetch',
      if_pos ⟨ht, hlt⟩, if_pos ⟨ht, hlt⟩]
    exact ⟨rfl, rfl⟩
  · intro hmiss hmock
    rw [get_access_token_no_override, if_neg hmiss, if_pos hmock, h2160]
  · intro hmiss hmock tok hf
    subst hf
    rw [get_access_token_no_override, if_neg hmiss]
    simp only [hmock]
    rw [if_neg Bool.false_ne_true, h2160]
  · intro hmiss hmock t1 ht1
    have h1 : get_access_token s now none none fetch =
        ({ s with token := some "MOCK_TOKEN",
                  expires := now +
                    ((if s.token_strategy = "short" then 24 else 2160) - 1) },
         .ok { access_token := some "MOCK_TOKEN",
               expires_at := now +
                 ((if s.token_strategy = "short" then 24 else 2160) - 1) }) := by
      rw [get_access_token_no_override, if_neg hmiss, if_pos hmock, h2160]
    rw [h1, get_access_token_no_override]
    rw [if_pos ?side]
    case side => exact ⟨by simp [truthyStr], ht1⟩

theorem token_cache_spec_witness :
    get_access_token
        { appkey := "A", appsecret := "S", mode := "virtual", mock := true,
          token := some "TOK", expires := 10, token_strategy := "short" }
        5 none none (.error "offline") =
      ({ appkey := "A", appsecret := "S", mode := "virtual", mock := true,
         token := some "TOK", expires := 10, token_strategy := "short" },
       .ok { access_token := some "TOK", expires_at := 10 }) ∧
    get_access_token
        { appkey := "A", appsecret := "S", mode := "virtual", mock := true,
          token := none, expires := 0, token_strategy := "short" }
        5 none none (.error "offline") =
      ({ appkey := "A", appsecret := "S", mode := "virtual", mock := true,
         token := some "MOCK_TOKEN", expires := 28, token_strategy := "short" },
       .ok { access_token := some "MOCK_TOKEN", expires_at := 28 }) := by
  constructor
  · exact ((token_cache_spec _ 5 (.error "offline") (.error "offline")).1
      (by decide) (by norm_num)).1
  · have h := (token_cache_spec
      { appkey := "A", appsecret := "S", mode := "virtual", mock := true,
        token := none, expires := 0, token_strategy := "short" }
      5 (.error "offline") (.error "offline")).2.1
      (by simp [truthyStr]) rfl
    rw [h]
    norm_num

/-- Truthy overrides reduce to a credential update before anything else. -/
theorem get_access_token_both_overrides (s : KISState) (now : ℚ)
    (k sk : String) (fetch : Except String (Option String))
    (hk : k ≠ "") (hsk : sk ≠ "") :
    get_access_token s now (some k) (some sk) fetch =
      get_access_token { s with appkey := k, appsecret := sk } now
        none none fetch := by
  have h1 : truthyStr (some k) = true := by simp [truthyStr, hk]
  have h2 : truthyStr (some sk) = true := by simp [truthyStr, hsk]
  unfold get_access_token
  simp only [h1, h2, truthyStr_none, Bool.false_eq_true, if_false, if_true,
    Option.getD_some]

/-- C5 (counterexample to the claim as stated): with a token cached under
appkey "A" and still unexpired, an acquisition that overrides the appkey to
"B" (and the secret to "S2") replaces the stored credentials yet still
serves the token cached under the old credentials — the cache check
consults expiry only, so changed keys do not trigger a refresh. -/
theorem stale_token_served_after_key_change :
    (get_access_token
        { appkey := "A", appsecret := "S", mode := "virtual", mock := true,
          token := some "OLD", expires := 10, token_strategy := "short" }
        5 (some "B") (some "S2") (.error "offline")).2 =
      .ok { access_token := some "OLD", expires_at := 10 } ∧
    (get_access_token
        { appkey := "A", appsecret := "S", mode := "virtual", mock := true,
          token := some "OLD", expires := 10, token_strategy := "short" }
        5 (some "B") (some "S2") (.error "offline")).1.appkey = "B" ∧
    ("B" : String) ≠ "A" := by
  rw [get_access_token_both_overrides _ _ _ _ _ (by decide) (by decide),
    get_access_token_no_override,
    if_pos ⟨by decide, by norm_num⟩]
  exact ⟨rfl, rfl, by decide⟩

/-- C5 (amended): supplied override credentials permanently replace the
stored ones in every branch (including a failing exchange), but cache
validity is evaluated on expiry alone: an unexpired truthy token is served
unchanged even when the supplied keys or the client's mode differ from
those it was cached under; only expiry (or a falsy token) leads to a
refresh. -/
theorem token_overrides_and_cache_validity (s : KISState) (now : ℚ)
    (k sk : String) (fetch : Except String (Option String)) :
    (k ≠ "" → sk ≠ "" →
      (get_access_token s now (some k) (some sk) fetch).1.appkey = k ∧
      (get_access_token s now (some k) (some sk) fetch).1.appsecret = sk) ∧
    (k ≠ "" → sk ≠ "" → truthyStr s.token = true → now < s.expires →
      (get_access_token s now (some k) (some sk) fetch).2 =
        .ok { access_token := s.token, expires_at := s.expires }) ∧
    (∀ m, m ≠ "" → truthyStr s.token = true → now < s.expires →
      (api_token s { appkey := none, appsecret := none, mode := some m }
          now fetch).2 =
        .ok { access_token := s.token, expires_at := s.expires } ∧
      (api_token s { appkey := none, appsecret := none, mode := some m }
          now fetch).1.mode = m) := by
  refine ⟨?_, ?_, ?_⟩
  · intro hk hsk
    rw [get_access_token_both_overrides s now k sk fetch hk hsk,
      get_access_token_no_override]
    constructor
    · split
      · rfl
      · split
        · rfl
        · cases fetch <;> rfl
    · split
      · rfl
      · split
        · rfl
        · cases fetch <;> rfl
  · intro hk hsk ht hlt
    rw [get_access_token_both_overrides s now k sk fetch hk hsk,
      get_access_token_no_override, if_pos ⟨ht, hlt⟩]
  · intro m hm ht hlt
    unfold api_token
    have h1 : truthyStr (some m) = true := by simp [truthyStr, hm]
    simp only [h1, if_true, Option.getD_some]
    rw [get_access_token_no_override, if_pos ⟨ht, hlt⟩]
    exact ⟨rfl, rfl⟩

theorem token_overrides_and_cache_validity_witness :
    (get_access_token
        { appkey := "A", appsecret := "S", mode := "virtual", mock := true,
          token := some "TOK", expires := 10, token_strategy := "short" }
        5 (some "B") (some "S2") (.error "offline")).1.appkey = "B" ∧
    (api_token
        { appkey := "A", appsecret := "S", mode := "virtual", mock := true,
          token := some "TOK", expires := 10, token_strategy := "short" }
        { appkey := none, appsecret := none, mode := some "real" }
        5 (.error "offline")).2 =
      .ok { access_token := some "TOK", expires_at := 10 } := by
  constructor
  · exact ((token_overrides_and_cache_validity _ 5 "B" "S2"
      (.error "offline")).1 (by decide) (by decide)).1
  · exact ((token_overrides_and_cache_validity _ 5 "B" "S2"
      (.error "offline")).2.2 "real" (by decide) (by decide)
      (by norm_num)).1

/-- C8: the execution driver is sequential and plan-faithful: running the
batch equals planning the calls (a market buy with price 0 and order-kind
"01" exactly when `qty_market > 0`, then a limit buy at `limit_price` with
order-kind "00" exactly when `qty_limit > 0`, item by item) and then either
failing with the first submission error — aborting the entire remaining
batch and surfacing that error — or, when no submission fails, returning
exactly the planned per-tranche results. -/
theorem order_execute_plan (items : List OrderPreviewItem)
    (submit : OrderCall → Except String String) :
    order_execute items submit =
      match firstError submit (plannedCalls items) with
      | none => .ok (plannedResults items submit)
      | some e => .error e := by
  induction items with
  | nil => rfl
  | cons it rest ih =>
    have hpc : plannedCalls (it :: rest) =
        ((if it.qty_market > 0 then [marketCall it] else []) ++
         (if it.qty_limit > 0 then [limitCall it] else [])) ++
          plannedCalls rest := by
      simp [plannedCalls]
    simp only [order_execute]
    rw [executeItem_plan it submit, hpc,
      firstError_append submit
        ((if it.qty_market > 0 then [marketCall it] else []) ++
         (if it.qty_limit > 0 then [limitCall it] else []))
        (plannedCalls rest)]
    cases hfe : firstError submit
        ((if it.qty_market > 0 then [marketCall it] else []) ++
         (if it.qty_limit > 0 then [limitCall it] else [])) with
    | some e => rfl
    | none =>
      show ((order_execute rest submit).bind _) = _
      rw [ih]
      cases hre : firstError submit (plannedCalls rest) with
      | some e => rfl
      | none => simp [plannedResults, Except.bind]

/-- C9: `total_cash <= 0` is rejected by boundary validation and an empty
symbol list by the allocation calculator, both as `ValidationError`s and in
both cases with no network lookup issued (the second component of
`portfolio_weights` lists the symbols actually looked up); a single-symbol
list is accepted and assigned weight 1. -/
theorem weights_validation (raw : WeightsRequest)
    (lookup : String → Except String PriceData) :
    (raw.total_cash ≤ 0 →
      portfolio_weights raw lookup =
        (.error "ValidationError: total_cash must be greater than 0", [])) ∧
    (raw.items = [] → 0 < raw.total_cash →
      portfolio_weights raw lookup =
        (.error "ValidationError: items must be non-empty", [])) ∧
    (∀ sym reason d p, raw.items = [{ symbol := sym, reason := reason }] →
      0 < raw.total_cash → lookup sym = .ok d → previewPrice d = some p →
      ∃ r, (portfolio_weights raw lookup).1 = .ok { results := [r] } ∧
        r.weight = 1) := by
  refine ⟨?_, ?_, ?_⟩
  · intro hle
    have hv : ¬(raw.total_cash > 0) := not_lt.mpr hle
    unfold portfolio_weights validateWeightsRequest
    rw [if_neg hv]
  · intro hempty hpos
    have hcw : calculate_weights raw (fun _ => 0) =
        .error "ValidationError: items must be non-empty" := by
      unfold calculate_weights
      rw [if_neg (not_le.mpr hpos), hempty]
      rfl
    unfold portfolio_weights validateWeightsRequest
    rw [if_pos hpos]
    simp only [hempty]
    simp [weightsLoop, hcw]
  · intro sym reason d p hitems hpos hl hp
    have hloop : weightsLoop lookup [{ symbol := sym, reason := reason }]
        (fun _ => 0) =
        (.ok (fun s => if s = sym then p else 0), [sym]) := by
      simp [weightsLoop, hl, hp]
    have hcw : calculate_weights raw (fun s => if s = sym then p else 0) =
        .ok { results :=
          [{ symbol := sym
             weight := 1
             initial_buy_cash := raw.total_cash * raw.initial_buy_ratio
             dca_cash := raw.total_cash * (1 - raw.initial_buy_ratio)
             limit_price_hint := p * (1 - raw.discount_rate) }] } := by
      unfold calculate_weights
      rw [if_neg (not_le.mpr hpos), hitems]
      norm_num
    refine ⟨{ symbol := sym
              weight := 1
              initial_buy_cash := raw.total_cash * raw.initial_buy_ratio
              dca_cash := raw.total_cash * (1 - raw.initial_buy_ratio)
              limit_price_hint := p * (1 - raw.discount_rate) }, ?_, rfl⟩
    unfold portfolio_weights validateWeightsRequest
    rw [if_pos hpos]
    simp only [hitems]
    simp [hloop, hcw]

theorem weights_validation_witness :
    portfolio_weights
        { total_cash := 0, items := [{ symbol := "AA", reason := "x" }] }
        lookup50 =
      (.error "ValidationError: total_cash must be greater than 0", []) ∧
    portfolio_weights { total_cash := 100, items := [] } lookup50 =
      (.error "ValidationError: items must be non-empty", []) ∧
    ∃ r, (portfolio_weights
        { total_cash := 100, items := [{ symbol := "AA", reason := "x" }] }
        lookup50).1 = .ok { results := [r] } ∧ r.weight = 1 := by
  refine ⟨?_, ?_, ?_⟩
  · exact (weights_validation _ lookup50).1 (by norm_num)
  · exact (weights_validation _ lookup50).2.1 rfl (by norm_num)
  · exact (weights_validation _ lookup50).2.2 "AA" "x"
      { output2 := some [{ stck_clpr := some 50 }] } 50 rfl (by norm_num)
      rfl rfl

/-- C1 (counterexample to the claim as stated): in a two-item batch where
"AA"'s price lookup succeeds and "BB"'s lookup raises, the whole preview
aborts with the lookup error — no preview is produced for "AA" — so a
failure in one symbol's price lookup does abort the preview of the other
items. -/
theorem preview_aborts_on_lookup_failure :
    lookupAAonly "AA" = .ok { output2 := some [{ stck_clpr := some 50 }] } ∧
    lookupAAonly "BB" = .error "quote error 500" ∧
    order_preview
      { results := [{ symbol := "AA", weight := 1/2, initial_buy_cash := 25,
                      dca_cash := 25, limit_price_hint := 50 },
                    { symbol := "BB", weight := 1/2, initial_buy_cash := 25,
                      dca_cash := 25, limit_price_hint := 50 }],
        total_cash := 100 }
      lookupAAonly = .error "quote error 500" := by
  have hAA : lookupAAonly "AA" =
      .ok { output2 := some [{ stck_clpr := some 50 }] } := rfl
  have hBB : lookupAAonly "BB" = .error "quote error 500" := rfl
  refine ⟨hAA, hBB, ?_⟩
  norm_num [order_preview, previewLoop, hAA, hBB, previewPrice,
    Except.instMonad, Except.bind, Except.map, Option.getD]

/-- C1 (amended): when every item's lookup returns a response (no raised
exception) whose price is extractable — including a zero price or a price
field missing from the row, both of which default to 0 — the whole batch is
previewed, one item per allocation row, and every item whose extracted
price is 0 gets `qty_market = 0`; only a raised lookup exception (or an
empty `output2` list) aborts the preview. -/
theorem preview_tolerates_zero_price (req : OrderPreviewRequest)
    (lookup : String → Except String PriceData)
    (h : ∀ r ∈ req.results, ∃ d, lookup r.symbol = .ok d ∧
      (previewPrice d).isSome) :
    ∃ resp, order_preview req lookup = .ok resp ∧
      resp.items.length = req.results.length ∧
      ∀ it ∈ resp.items, it.price = 0 → it.qty_market = 0 := by
  refine ⟨_, order_preview_eq_map req lookup h, by simp, ?_⟩
  intro it hit hp0
  obtain ⟨r, hr, rfl⟩ := List.mem_map.mp hit
  show qtyMarketOf r (priceAt lookup r.symbol) = 0
  have hp0' : priceAt lookup r.symbol = 0 := hp0
  rw [hp0']
  simp [qtyMarketOf]

theorem preview_tolerates_zero_price_witness :
    ∃ resp,
      order_preview
        { results := [{ symbol := "AA", weight := 1/2,
                        initial_buy_cash := 25, dca_cash := 25,
                        limit_price_hint := 50 },
                      { symbol := "BB", weight := 1/2,
                        initial_buy_cash := 25, dca_cash := 25,
                        limit_price_hint := 50 }],
          total_cash := 100 }
        lookupNoClose = .ok resp ∧
      resp.items.length = 2 ∧
      ∀ it ∈ resp.items, it.price = 0 → it.qty_market = 0 := by
  refine preview_tolerates_zero_price _ lookupNoClose ?_
  intro r hr
  rcases List.mem_cons.mp hr with h1 | h1
  · exact ⟨{ output2 := some [{ stck_clpr := some 50 }] },
      by rw [h1]; rfl, rfl⟩
  · rcases List.mem_singleton.mp h1 with h2
    exact ⟨{ output2 := some [{}] }, by rw [h2]; rfl, rfl⟩

/-- C6 (counterexample to the claim as stated): the guards are Python
truthiness (`≠ 0`), not `> 0`. With `limit_price_hint = -2` and
`dca_cash = 5` the code computes `qty_limit = floor(5 / -2) = -3`, not the
0 the claim requires for a non-positive hint. -/
theorem negative_hint_gives_negative_qty :
    order_preview
      { results := [{ symbol := "AA", weight := 0, initial_buy_cash := 1,
                      dca_cash := 5, limit_price_hint := -2 }],
        total_cash := 10 }
      lookup50 =
      .ok { items := [{ symbol := "AA", weight := 0, price := 50,
                        qty_market := 0, qty_limit := -3, limit_price := -2,
                        cash_needed := 6 }],
            total_cash_needed := 6 } ∧
    ¬((-2 : ℚ) > 0) ∧ ((-3 : ℤ) ≠ 0) := by
  refine ⟨?_, by norm_num, by norm_num⟩
  norm_num [order_preview, previewLoop, lookup50, previewPrice, itemOf,
    cashOf, qtyMarketOf, qtyLimitOf, round2, round_eq, Except.instMonad,
    Except.bind, Except.map, Option.getD]

/-- C6 (amended): for every preview item, `qty_market` is
`floor(initial_buy_cash / price)` when `price ≠ 0` and 0 when `price = 0`,
and `qty_limit` is `floor(dca_cash / limit_price_hint)` when
`limit_price_hint ≠ 0` and 0 when it is 0 — the divisions are guarded by
truthiness and never raise; whenever the price (resp. hint) is
nonnegative, these guards coincide with the claim's `> 0` form. -/
theorem preview_quantity_guards (req : OrderPreviewRequest)
    (lookup : String → Except String PriceData)
    (h : ∀ r ∈ req.results, ∃ d, lookup r.symbol = .ok d ∧
      (previewPrice d).isSome) :
    ∃ resp, order_preview req lookup = .ok resp ∧
      resp.items.length = req.results.length ∧
      ∀ i (h1 : i < req.results.length) (h2 : i < resp.items.length),
        ((resp.items.get ⟨i, h2⟩).qty_market =
          if (resp.items.get ⟨i, h2⟩).price ≠ 0 then
            ⌊(req.results.get ⟨i, h1⟩).initial_buy_cash /
              (resp.items.get ⟨i, h2⟩).price⌋
          else 0) ∧
        ((resp.items.get ⟨i, h2⟩).qty_limit =
          if (req.results.get ⟨i, h1⟩).limit_price_hint ≠ 0 then
            ⌊(req.results.get ⟨i, h1⟩).dca_cash /
              (req.results.get ⟨i, h1⟩).limit_price_hint⌋
          else 0) ∧
        (0 ≤ (resp.items.get ⟨i, h2⟩).price →
          (resp.items.get ⟨i, h2⟩).qty_market =
          if 0 < (resp.items.get ⟨i, h2⟩).price then
            ⌊(req.results.get ⟨i, h1⟩).initial_buy_cash /
              (resp.items.get ⟨i, h2⟩).price⌋
          else 0) ∧
        (0 ≤ (req.results.get ⟨i, h1⟩).limit_price_hint →
          (resp.items.get ⟨i, h2⟩).qty_limit =
          if 0 < (req.results.get ⟨i, h1⟩).limit_price_hint then
            ⌊(req.results.get ⟨i, h1⟩).dca_cash /
              (req.results.get ⟨i, h1⟩).limit_price_hint⌋
          else 0) := by
  refine ⟨_, order_preview_eq_map req lookup h, by simp, ?_⟩
  intro i h1 h2
  dsimp only
  have hget : ∀ (hx : i < (req.results.map fun r =>
      itemOf r (priceAt lookup r.symbol)).length),
      (req.results.map fun r => itemOf r (priceAt lookup r.symbol)).get
        ⟨i, hx⟩ =
      itemOf (req.results.get ⟨i, h1⟩)
        (priceAt lookup (req.results.get ⟨i, h1⟩).symbol) := by
    intro hx
    rw [List.get_map]
  rw [hget]
  unfold itemOf qtyMarketOf qtyLimitOf
  dsimp only
  refine ⟨rfl, rfl, ?_, ?_⟩
  · intro hp
    exact ite_ne_eq_ite_pos _ hp _ _
  · intro hh
    exact ite_ne_eq_ite_pos _ hh _ _

theorem preview_quantity_guards_witness :
    ∃ resp, order_preview
      { results := [{ symbol := "AA", weight := 1, initial_buy_cash := 100,
                      dca_cash := 100, limit_price_hint := 25 }],
        total_cash := 200 }
      lookup50 = .ok resp ∧ resp.items.length = 1 := by
  obtain ⟨resp, hok, hlen, -⟩ := preview_quantity_guards
    { results := [{ symbol := "AA", weight := 1, initial_buy_cash := 100,
                    dca_cash := 100, limit_price_hint := 25 }],
      total_cash := 200 }
    lookup50
    (fun r _ => ⟨{ output2 := some [{ stck_clpr := some 50 }] }, rfl, rfl⟩)
  exact ⟨resp, hok, hlen⟩

/-- C3 (counterexample to the claim as stated): two items each with
unrounded cash 0.004 round per-item to 0.00, yet the response's
`total_cash_needed` is 0.01, because the code accumulates the *unrounded*
per-item cash and rounds only the sum — so the total does not equal the
(rounded) sum of the items' `cash_needed`. -/
theorem total_not_sum_of_rounded_items :
    order_preview
      { results := [{ symbol := "AA", weight := 1/2,
                      initial_buy_cash := 1/250, dca_cash := 0,
                      limit_price_hint := 0 },
                    { symbol := "BB", weight := 1/2,
                      initial_buy_cash := 1/250, dca_cash := 0,
                      limit_price_hint := 0 }],
        total_cash := 1 }
      lookupTiny =
      .ok { items := [{ symbol := "AA", weight := 1/2, price := 1/250,
                        qty_market := 1, qty_limit := 0, limit_price := 0,
                        cash_needed := 0 },
                      { symbol := "BB", weight := 1/2, price := 1/250,
                        qty_market := 1, qty_limit := 0, limit_price := 0,
                        cash_needed := 0 }],
            total_cash_needed := 1/100 } ∧
    (([({ symbol := "AA", weight := 1/2, price := 1/250, qty_market := 1,
          qty_limit := 0, limit_price := 0, cash_needed := 0 } :
          OrderPreviewItem),
        { symbol := "BB", weight := 1/2, price := 1/250, qty_market := 1,
          qty_limit := 0, limit_price := 0, cash_needed := 0 }]).map
      OrderPreviewItem.cash_needed).sum = 0 ∧
    round2 0 = 0 ∧ ((1/100 : ℚ) ≠ 0) := by
  refine ⟨?_, by simp, by norm_num [round2, round_eq], by norm_num⟩
  norm_num [order_preview, previewLoop, lookupTiny, previewPrice, itemOf,
    cashOf, qtyMarketOf, qtyLimitOf, round2, round_eq, Except.instMonad,
    Except.bind, Except.map, Option.getD]

/-- C3 (amended): for every preview item, `cash_needed` equals
`qty_market * price + qty_limit * limit_price` rounded to 2 decimals, and
the response's `total_cash_needed` equals the sum of the items' *unrounded*
cash values, rounded once to 2 decimals. -/
theorem preview_cash_rounding (req : OrderPreviewRequest)
    (lookup : String → Except String PriceData)
    (h : ∀ r ∈ req.results, ∃ d, lookup r.symbol = .ok d ∧
      (previewPrice d).isSome) :
    ∃ resp, order_preview req lookup = .ok resp ∧
      (∀ it ∈ resp.items, it.cash_needed =
        round2 ((it.qty_market : ℚ) * it.price +
          (it.qty_limit : ℚ) * it.limit_price)) ∧
      resp.total_cash_needed =
        round2 ((resp.items.map fun it =>
          (it.qty_market : ℚ) * it.price +
            (it.qty_limit : ℚ) * it.limit_price).sum) := by
  refine ⟨_, order_preview_eq_map req lookup h, ?_, ?_⟩
  · intro it hit
    obtain ⟨r, hr, rfl⟩ := List.mem_map.mp hit
    rfl
  · dsimp only
    rw [List.map_map]
    rfl

theorem preview_cash_rounding_witness :
    ∃ resp, order_preview
      { results := [{ symbol := "AA", weight := 1, initial_buy_cash := 120,
                      dca_cash := 80, limit_price_hint := 30 }],
        total_cash := 200 }
      lookup50 = .ok resp ∧
      resp.total_cash_needed =
        round2 ((resp.items.map fun it =>
          (it.qty_market : ℚ) * it.price +
            (it.qty_limit : ℚ) * it.limit_price).sum) := by
  obtain ⟨resp, h1, -, h3⟩ := preview_cash_rounding
    { results := [{ symbol := "AA", weight := 1, initial_buy_cash := 120,
                    dca_cash := 80, limit_price_hint := 30 }],
      total_cash := 200 }
    lookup50
    (fun r _ => ⟨{ output2 := some [{ stck_clpr := some 50 }] }, rfl, rfl⟩)
  exact ⟨resp, h1, h3⟩

/-- C2 (counterexample to the claim as stated): with
`totalCash = 199.998`, one symbol, ratio 1/2 and discount 0 at price
99.999, the allocation gives `ib = dca = 99.999`; the preview buys one
share in each tranche for exactly 199.998 of unrounded cash, which rounds
up to 200.00 — so both the item's `cash_needed` and the returned
`total_cash_needed` exceed the allotted cash by half a cent. -/
theorem rounding_overshoots_total_cash :
    calculate_weights
      { total_cash := 99999/500, items := [{ symbol := "AA", reason := "r" }],
        initial_buy_ratio := 1/2, discount_rate := 0 }
      (fun _ => 99999/1000) =
      .ok { results := [{ symbol := "AA", weight := 1,
                          initial_buy_cash := 99999/1000,
                          dca_cash := 99999/1000,
                          limit_price_hint := 99999/1000 }] } ∧
    order_preview
      { results := [{ symbol := "AA", weight := 1,
                      initial_buy_cash := 99999/1000,
                      dca_cash := 99999/1000,
                      limit_price_hint := 99999/1000 }],
        total_cash := 99999/500 }
      lookup99999 =
      .ok { items := [{ symbol := "AA", weight := 1, price := 99999/1000,
                        qty_market := 1, qty_limit := 1,
                        limit_price := 99999/1000,
                        cash_needed := 200 }],
            total_cash_needed := 200 } ∧
    ¬((200 : ℚ) ≤ 99999/500) ∧
    ¬((200 : ℚ) ≤ 99999/1000 + 99999/1000) := by
  refine ⟨?_, ?_, by norm_num, by norm_num⟩
  · norm_num [calculate_weights]
  · norm_num [order_preview, previewLoop, lookup99999, previewPrice, itemOf,
      cashOf, qtyMarketOf, qtyLimitOf, round2, round_eq, Except.instMonad,
      Except.bind, Except.map, Option.getD]

/-- C2 (amended): for a preview built from Allocation Calculator output
(nonnegative ratio at most 1, discount rate at most 1, nonnegative price
maps), the *unrounded* per-item cash never exceeds the symbol's allotted
cash `totalCash / n` and the *unrounded* total never exceeds `totalCash`;
the rounded `cash_needed` and `total_cash_needed` can exceed these bounds
only by the half-cent introduced by `round(…, 2)`. -/
theorem preview_within_allocated_cash
    (tc ratio dr : ℚ) (its : List PortfolioItem) (pm : String → ℚ)
    (lookup : String → Except String PriceData) (wresp : WeightsResponse)
    (hratio0 : 0 ≤ ratio) (hratio1 : ratio ≤ 1) (hdr : dr ≤ 1)
    (hpm : ∀ s, 0 ≤ pm s)
    (hw : calculate_weights { total_cash := tc, items := its,
                              initial_buy_ratio := ratio,
                              discount_rate := dr } pm = .ok wresp)
    (hl : ∀ r ∈ wresp.results, ∃ d, lookup r.symbol = .ok d ∧
      ∃ p, previewPrice d = some p ∧ 0 ≤ p) :
    ∃ resp, order_preview { results := wresp.results, total_cash := tc }
        lookup = .ok resp ∧
      (∀ it ∈ resp.items,
        (it.qty_market : ℚ) * it.price +
          (it.qty_limit : ℚ) * it.limit_price ≤ tc / its.length ∧
        it.cash_needed ≤ tc / its.length + 1/200) ∧
      (resp.items.map fun it =>
        (it.qty_market : ℚ) * it.price +
          (it.qty_limit : ℚ) * it.limit_price).sum ≤ tc ∧
      resp.total_cash_needed ≤ tc + 1/200 := by
  obtain ⟨htc, hne, hres⟩ := calculate_weights_ok _ pm wresp hw
  dsimp only at htc hne hres
  have hn0 : (0 : ℚ) < its.length := by
    exact_mod_cast List.length_pos.mpr hne
  have hr_facts : ∀ r ∈ wresp.results,
      0 ≤ r.initial_buy_cash ∧ 0 ≤ r.dca_cash ∧ 0 ≤ r.limit_price_hint ∧
      r.initial_buy_cash + r.dca_cash = tc / its.length := by
    intro r hr
    rw [hres] at hr
    obtain ⟨it, hit, rfl⟩ := List.mem_map.mp hr
    refine ⟨?_, ?_, ?_, ?_⟩
    · dsimp only
      have : (0:ℚ) ≤ tc * (1 / its.length) := by positivity
      exact mul_nonneg this hratio0
    · dsimp only
      have : (0:ℚ) ≤ tc * (1 / its.length) := by positivity
      exact mul_nonneg this (by linarith)
    · dsimp only
      exact mul_nonneg (hpm _) (by linarith)
    · dsimp only
      field_simp
      ring
  have hprice : ∀ r ∈ wresp.results, 0 ≤ priceAt lookup r.symbol := by
    intro r hr
    obtain ⟨d, hd, p, hp, hp0⟩ := hl r hr
    simp only [priceAt, hd, hp, Option.getD_some]
    exact hp0
  have hl' : ∀ r ∈ wresp.results, ∃ d, lookup r.symbol = .ok d ∧
      (previewPrice d).isSome := by
    intro r hr
    obtain ⟨d, hd, p, hp, -⟩ := hl r hr
    exact ⟨d, hd, by simp [hp]⟩
  have hcash : ∀ r ∈ wresp.results,
      cashOf r (priceAt lookup r.symbol) ≤ tc / its.length := by
    intro r hr
    obtain ⟨hib, hdca, hh, hsum⟩ := hr_facts r hr
    calc cashOf r (priceAt lookup r.symbol) ≤
        r.initial_buy_cash + r.dca_cash :=
          cashOf_le r _ (hprice r hr) hib hdca hh
      _ = tc / its.length := hsum
  refine ⟨_, order_preview_eq_map _ lookup hl', ?_, ?_, ?_⟩
  · intro it hit
    dsimp only at hit
    obtain ⟨r, hr, rfl⟩ := List.mem_map.mp hit
    have h1 : (itemOf r (priceAt lookup r.symbol)).qty_market *
        (itemOf r (priceAt lookup r.symbol)).price +
        (itemOf r (priceAt lookup r.symbol)).qty_limit *
        (itemOf r (priceAt lookup r.symbol)).limit_price =
        cashOf r (priceAt lookup r.symbol) := rfl
    push_cast at h1 ⊢
    rw [h1]
    refine ⟨hcash r hr, ?_⟩
    calc (itemOf r (priceAt lookup r.symbol)).cash_needed =
        round2 (cashOf r (priceAt lookup r.symbol)) := rfl
      _ ≤ cashOf r (priceAt lookup r.symbol) + 1/200 := round2_le_add _
      _ ≤ tc / its.length + 1/200 := by linarith [hcash r hr]
  · dsimp only
    rw [List.map_map]
    have heq : ((fun it : OrderPreviewItem =>
        (it.qty_market : ℚ) * it.price +
          (it.qty_limit : ℚ) * it.limit_price) ∘
        fun r => itemOf r (priceAt lookup r.symbol)) =
        fun r => cashOf r (priceAt lookup r.symbol) := rfl
    rw [heq]
    calc (wresp.results.map fun r =>
          cashOf r (priceAt lookup r.symbol)).sum ≤
        (wresp.results.map fun _ => tc / its.length).sum :=
          List.sum_le_sum hcash
      _ = wresp.results.length • (tc / its.length) := by
          rw [List.map_const', List.sum_replicate]
      _ = (its.length : ℚ) * (tc / its.length) := by
          rw [hres, List.length_map, nsmul_eq_mul]
      _ = tc := by field_simp
  · dsimp only
    have hsum : (wresp.results.map fun r =>
        cashOf r (priceAt lookup r.symbol)).sum ≤ tc := by
      calc (wresp.results.map fun r =>
            cashOf r (priceAt lookup r.symbol)).sum ≤
          (wresp.results.map fun _ => tc / its.length).sum :=
            List.sum_le_sum hcash
        _ = wresp.results.length • (tc / its.length) := by
            rw [List.map_const', List.sum_replicate]
        _ = (its.length : ℚ) * (tc / its.length) := by
            rw [hres, List.length_map, nsmul_eq_mul]
        _ = tc := by field_simp
    calc round2 ((wresp.results.map fun r =>
          cashOf r (priceAt lookup r.symbol)).sum) ≤
        (wresp.results.map fun r =>
          cashOf r (priceAt lookup r.symbol)).sum + 1/200 := round2_le_add _
      _ ≤ tc + 1/200 := by linarith

theorem preview_within_allocated_cash_witness :
    ∃ resp, order_preview
      { results := [{ symbol := "AA", weight := 1, initial_buy_cash := 50,
                      dca_cash := 50, limit_price_hint := 97/2 }],
        total_cash := 100 } lookup50 = .ok resp ∧
      resp.total_cash_needed ≤ 100 + 1/200 := by
  have hw : calculate_weights
      { total_cash := 100, items := [{ symbol := "AA", reason := "ok" }],
        initial_buy_ratio := 1/2, discount_rate := 3/100 } (fun _ => 50) =
      .ok { results := [{ symbol := "AA", weight := 1,
                          initial_buy_cash := 50, dca_cash := 50,
                          limit_price_hint := 97/2 }] } := by
    norm_num [calculate_weights]
  obtain ⟨resp, h1, -, -, h4⟩ :=
    preview_within_allocated_cash 100 (1/2) (3/100)
      [{ symbol := "AA", reason := "ok" }] (fun _ => 50) lookup50 _
      (by norm_num) (by norm_num) (by norm_num) (fun s => by norm_num) hw
      (by
        intro r hr
        simp only [List.mem_singleton] at hr
        subst hr
        exact ⟨{ output2 := some [{ stck_clpr := some 50 }] }, rfl, 50, rfl,
          by norm_num⟩)
  exact ⟨resp, h1, h4⟩
